import Mathlib

set_option maxRecDepth 200000

/-!
Shallow embedding of the ai-trading repository (mcp-hooks.py,
telegram_notification_system.py, crypto_trading_agent.py).

Numbers are modelled as rationals; Python `round` (banker's rounding) is
modelled exactly on rationals; `json.loads` outcomes are modelled by an
explicit argument type; the persisted `demo.json` ledger is an explicit
state record threaded through `save_trading_result`.
-/

namespace AiTrading

/-- Python `round` to the nearest integer, ties to even (banker's rounding),
as used by `round(x)` in the mermaid line and `round(x, 1)` on balances. -/
def roundHalfEven (q : ℚ) : ℤ :=
  let f : ℤ := ⌊q⌋
  let r : ℚ := q - f
  if r < 1/2 then f
  else if 1/2 < r then f + 1
  else if f % 2 = 0 then f else f + 1

/-- Python `round(x, 1)`: round to one decimal digit, ties to even. -/
def pyRound1 (q : ℚ) : ℚ := (roundHalfEven (q * 10) : ℚ) / 10

/-- Python `round(x)` (no digits argument): round to an integer. -/
def pyRoundInt (q : ℚ) : ℤ := roundHalfEven q

/-- One entry of `data["balances"]`: `{"time": ..., "balance": ...}`.
Timestamps are abstracted to a counter supplied by the caller. -/
structure BalancePoint where
  time : Nat
  balance : ℚ
  deriving DecidableEq

/-- One entry of `data["trades"]`: `{"time": ..., "text": ...}`. -/
structure TradeEntry where
  time : Nat
  text : String
  deriving DecidableEq

/-- The persisted `demo.json` state: balances list, asset snapshot
(association list, keys unique as in a Python dict), trade log. -/
structure Ledger where
  balances : List BalancePoint := []
  assets : List (String × ℚ) := []
  trades : List TradeEntry := []
  deriving DecidableEq

/-- Python slice `l[-n:]`: the last `n` elements (all of `l` when shorter). -/
def lastN (n : Nat) (l : List α) : List α := l.drop (l.length - n)

/-- A parsed JSON value, at the granularity the tool needs: objects with
numeric values (asset snapshots), arrays of strings (trade texts), or
anything else. -/
inductive PyJson where
  | obj (m : List (String × ℚ))
  | arr (l : List String)
  | other
  deriving DecidableEq

/-- Whether a `PyJson` value is a dict (`isinstance(x, dict)`). -/
def PyJson.isObj : PyJson → Bool
  | .obj _ => true
  | _ => false

/-- Whether a `PyJson` value is a list (`isinstance(x, list)`). -/
def PyJson.isArr : PyJson → Bool
  | .arr _ => true
  | _ => false

/-- How the `assets` / `trades` argument arrives: either as an already
structured value, or as a string together with the outcome of
`json.loads` on it (`none` models a raised `ValueError`). -/
inductive ArgInput where
  | direct (v : PyJson)
  | jstr (parsed : Option PyJson)
  deriving DecidableEq

/-- Lines 48-52 of mcp-hooks.py: a string argument is parsed with
`json.loads`, and on `ValueError` replaced by `{}`. -/
def resolveAssets : ArgInput → PyJson
  | .direct v => v
  | .jstr none => .obj []
  | .jstr (some v) => v

/-- Lines 59-63 of mcp-hooks.py: a string argument is parsed with
`json.loads`, and on `ValueError` replaced by `None`. -/
def resolveTrades : ArgInput → Option PyJson
  | .direct v => some v
  | .jstr none => none
  | .jstr (some v) => some v

/-- Line 53 of mcp-hooks.py: `if assets and isinstance(assets, dict)` —
yields the dict entries when the value is a non-empty dict. -/
def truthyDict : PyJson → Option (List (String × ℚ))
  | .obj m => if m.isEmpty then none else some m
  | _ => none

/-- URL-safe base64 alphabet (`base64.urlsafe_b64encode`): index 0..63 to
character. -/
def b64Char (n : Nat) : Char :=
  if n < 26 then Char.ofNat (65 + n)
  else if n < 52 then Char.ofNat (97 + (n - 26))
  else if n < 62 then Char.ofNat (48 + (n - 52))
  else if n = 62 then '-' else '_'

/-- URL-safe base64 alphabet, character to index 0..63 (decode table). -/
def b64CharVal (c : Char) : Nat :=
  let n := c.toNat
  if 65 ≤ n ∧ n ≤ 90 then n - 65
  else if 97 ≤ n ∧ n ≤ 122 then n - 71
  else if 48 ≤ n ∧ n ≤ 57 then n + 4
  else if n = 45 then 62
  else if n = 95 then 63
  else 0

/-- `base64.urlsafe_b64encode` on a byte sequence: groups of three bytes
become four alphabet characters; a trailing group of one or two bytes is
padded with `=`. -/
def encB64 : List Nat → List Char
  | [] => []
  | [b1] => [b64Char (b1 / 4), b64Char (b1 % 4 * 16), '=', '=']
  | [b1, b2] =>
      [b64Char (b1 / 4), b64Char (b1 % 4 * 16 + b2 / 16), b64Char (b2 % 16 * 4), '=']
  | b1 :: b2 :: b3 :: rest =>
      b64Char (b1 / 4) :: b64Char (b1 % 4 * 16 + b2 / 16) ::
      b64Char (b2 % 16 * 4 + b3 / 64) :: b64Char (b3 % 64) :: encB64 rest

/-- `base64.urlsafe_b64decode` on padded URL-safe base64 text as produced
by `encB64`: each quartet yields three bytes, a final `xx==` quartet one
byte and a final `xxx=` quartet two bytes. -/
def decB64 : List Char → List Nat
  | c1 :: c2 :: c3 :: c4 :: rest =>
      if c3 = '=' then [b64CharVal c1 * 4 + b64CharVal c2 / 16]
      else if c4 = '=' then
        [b64CharVal c1 * 4 + b64CharVal c2 / 16,
         b64CharVal c2 % 16 * 16 + b64CharVal c3 / 4]
      else
        (b64CharVal c1 * 4 + b64CharVal c2 / 16) ::
        (b64CharVal c2 % 16 * 16 + b64CharVal c3 / 4) ::
        (b64CharVal c3 % 4 * 64 + b64CharVal c4) :: decB64 rest
  | _ => []

/-- UTF-8 encoding of one Unicode scalar value (`str.encode()`
byte-for-byte on one character). -/
def utf8Char (c : Char) : List Nat :=
  let n := c.toNat
  if n < 128 then [n]
  else if n < 2048 then [192 + n / 64, 128 + n % 64]
  else if n < 65536 then [224 + n / 4096, 128 + n / 64 % 64, 128 + n % 64]
  else [240 + n / 262144, 128 + n / 4096 % 64, 128 + n / 64 % 64, 128 + n % 64]

/-- `str.encode()`: UTF-8 bytes of a string. -/
def utf8Bytes (s : String) : List Nat := (s.data.map utf8Char).flatten

/-- Lines 76-81 of mcp-hooks.py: the mermaid chart descriptor text built
from the stored balance points (f-string after `.strip()`). -/
def mermaidChart (bs : List BalancePoint) : String :=
  "xychart\n    title \"模拟盘余额\"\n    line [" ++
    String.intercalate "," (bs.map (fun p => toString (pyRoundInt p.balance))) ++ "]"

/-- Line 99 of mcp-hooks.py: the mermaid.ink URL embedding the URL-safe
base64 encoding of the descriptor's UTF-8 bytes. -/
def mermaidImage (bs : List BalancePoint) : String :=
  "https://mermaid.ink/img/" ++ String.mk (encB64 (utf8Bytes (mermaidChart bs))) ++ "?theme=dark"

/-- Lines 374-383 of telegram_notification_system.py
(`_generate_mermaid_chart`): the descriptor text built from the last 50
stored balance points (f-string after `.strip()`). -/
def mermaidChartTg (bs : List BalancePoint) : String :=
  "xychart\n    title \"AI模拟盘 - 余额趋势\"\n    line [" ++
    String.intercalate "," ((lastN 50 bs).map (fun p => toString (pyRoundInt p.balance))) ++ "]"

/-- Result of `save_trading_result`: the early validation return, or the
normal return value carrying the chart URL. -/
inductive SaveOutcome where
  | balanceEmpty
  | saved (mermaidImg : String)
  deriving DecidableEq

/-- Lines 41-46 of mcp-hooks.py: append the rounded balance point and
keep the last 1000 entries (`balances[-1000:]`). -/
def applyBalance (now : Nat) (balance : ℚ) (st : Ledger) : Ledger :=
  { st with balances := lastN 1000 (st.balances ++ [⟨now, pyRound1 balance⟩]) }

/-- Lines 48-57 of mcp-hooks.py: when a non-empty dict was supplied (after
string parsing), replace the stored snapshot wholesale with the rounded
values; otherwise leave it unchanged. -/
def applyAssets (assets : ArgInput) (st : Ledger) : Ledger :=
  match truthyDict (resolveAssets assets) with
  | some m => { st with assets := m.map (fun kv => (kv.1, pyRound1 kv.2)) }
  | none => st

/-- Lines 59-71 of mcp-hooks.py: when a non-empty list was supplied (after
string parsing), insert each entry at index 0 in supplied order and keep
the first 100 (`lst[0:100]`); otherwise leave the log unchanged. -/
def applyTrades (now : Nat) (trades : ArgInput) (st : Ledger) : Ledger :=
  match resolveTrades trades with
  | some (.arr ts) =>
      if ts.isEmpty then st
      else
        { st with
          trades := ((ts.map (fun t => (⟨now, t⟩ : TradeEntry))).reverse
                       ++ st.trades).take 100 }
  | _ => st

/-- mcp-hooks.py `save_trading_result` (lines 25-100): validate the
balance (`if not balance: return "Balance is empty"`), apply the balance,
assets and trades updates in source order, then persist and return the
chart URL.  `now` abstracts `datetime.now()`. -/
def save_trading_result (now : Nat) (balance : ℚ)
    (assets trades : ArgInput) (st : Ledger) : SaveOutcome × Ledger :=
  if balance = 0 then (.balanceEmpty, st)
  else
    let st3 := applyTrades now trades (applyAssets assets (applyBalance now balance st))
    (.saved (mermaidImage st3.balances), st3)

/-- A `save_trading_result` call with the default arguments
(`assets = "{}"`, `trades = "[]"`, both parsing to empty containers). -/
def saveDefaults (now : Nat) (balance : ℚ) (st : Ledger) : SaveOutcome × Ledger :=
  save_trading_result now balance (.jstr (some (.obj []))) (.jstr (some (.arr []))) st

/-- Scenario of claim C1: 1001 successive saves with balances 1..1001
starting from an empty ledger. -/
def scenarioSaves : Ledger :=
  (List.range' 1 1001).foldl (fun st n => (saveDefaults n (n : ℚ) st).2) {}

/-! ## telegram_notification_system.py -/

/-- Line 63: `balances[-1]["balance"] if balances else 0`. -/
def latest_balance (bs : List BalancePoint) : ℚ :=
  match bs.getLast? with
  | some p => p.balance
  | none => 0

/-- Line 64: `balances[0]["balance"] if len(balances) > 1 else latest_balance`. -/
def initial_balance (bs : List BalancePoint) : ℚ :=
  if 1 < bs.length then (bs.headD ⟨0, 0⟩).balance else latest_balance bs

/-- Line 98 of `generate_trading_report`: the inline percentage
`(latest - initial) / initial * 100`, which raises `ZeroDivisionError`
when `initial == 0` (the exception is caught by the report's handler). -/
def report_profit_rate (bs : List BalancePoint) : Except String ℚ :=
  if initial_balance bs = 0 then Except.error "ZeroDivisionError"
  else Except.ok ((latest_balance bs - initial_balance bs) / initial_balance bs * 100)

/-- Line 236 of `_generate_performance_metrics`:
`(net_profit / initial_balance * 100) if initial_balance > 0 else 0`. -/
def pm_profit_rate (initial latest : ℚ) : ℚ :=
  if 0 < initial then (latest - initial) / initial * 100 else 0

/-- Line 240: `balance_records / 24 if balance_records > 0 else 1`
(Python true division). -/
def days_span (records : Nat) : ℚ :=
  if 0 < records then (records : ℚ) / 24 else 1

/-- Line 241: `net_profit / days_span if days_span > 0 else 0`. -/
def daily_avg_profit (net : ℚ) (records : Nat) : ℚ :=
  if 0 < days_span records then net / days_span records else 0

/-- Python substring containment `pat in s` on character lists. -/
def hasSubstr (pat : List Char) : List Char → Bool
  | [] => pat.isEmpty
  | c :: rest => pat.isPrefixOf (c :: rest) || hasSubstr pat rest

/-- Python substring containment `pat in s` on strings. -/
def strContains (pat s : String) : Bool := hasSubstr pat.data s.data

/-- Line 189: `"Bought" in trade_text or "Buy" in trade_text`
(case-sensitive, as in the source). -/
def isBuyText (t : String) : Bool := strContains "Bought" t || strContains "Buy" t

/-- Line 191: `"Sold" in trade_text or "Sell" in trade_text`
(case-sensitive, as in the source). -/
def isSellText (t : String) : Bool := strContains "Sold" t || strContains "Sell" t

/-- Case-insensitive buy classification as worded by the spec (claim C6):
the lower-cased text contains `"bought"` or `"buy"`.  Stated only to be
compared with the source's `isBuyText`. -/
def specBuyText (t : String) : Bool :=
  hasSubstr "bought".data (t.data.map Char.toLower)
    || hasSubstr "buy".data (t.data.map Char.toLower)

/-- Lines 184-197 of `_generate_trades_summary`: buy/sell counters over
the first ten trade texts (`trades[:10]`), buy checked before sell. -/
def trade_counts (texts : List String) : Nat × Nat :=
  (texts.take 10).foldl
    (fun bc t =>
      if isBuyText t then (bc.1 + 1, bc.2)
      else if isSellText t then (bc.1, bc.2 + 1)
      else bc)
    (0, 0)

/-! ## crypto_trading_agent.py -/

/-- The parts of one `run_trading_cycle` result that the multi-cycle
summary reads: the `success` flag, the `balance`, and the
`executed_trades` list (only its length is consumed). -/
structure CycleResult where
  success : Bool
  balance : ℚ
  executedTrades : List String
  deriving DecidableEq

/-- The numeric outputs of `generate_cycle_summary`. -/
structure CycleSummary where
  avgBalance : ℚ
  totalTrades : Nat
  finalBalance : ℚ
  deriving DecidableEq

/-- Lines 543-551 of `generate_cycle_summary`: the accumulation loop over
the cycle results — sums of balances and executed-trade counts over
successful cycles, and the last successful cycle's balance. -/
def cycle_fold (results : List CycleResult) : ℚ × Nat × ℚ :=
  results.foldl
    (fun acc r =>
      if r.success then (acc.1 + r.balance, acc.2.1 + r.executedTrades.length, r.balance)
      else acc)
    (0, 0, 0)

/-- Lines 539-553 of `generate_cycle_summary`: the summary quantities,
with `avg_balance = total_balance / successful_cycles` guarded by
`successful_cycles > 0`. -/
def generate_cycle_summary (results : List CycleResult) (successful : Nat) : CycleSummary :=
  { avgBalance := if 0 < successful then (cycle_fold results).1 / (successful : ℚ) else 0
  , totalTrades := (cycle_fold results).2.1
  , finalBalance := (cycle_fold results).2.2 }

/-- Lines 498-518 of `run_multi_cycle_analysis`: `successful_cycles`
counts the results whose `success` flag is set (a cycle that raises is
appended as a failed result and so is not counted). -/
def successful_cycles (results : List CycleResult) : Nat :=
  results.countP (fun r => r.success)

/-! ## Helper lemmas -/

theorem b64CharVal_b64Char : ∀ n : Nat, n < 64 → b64CharVal (b64Char n) = n := by decide

theorem b64Char_ne_pad : ∀ n : Nat, n < 64 → b64Char n ≠ '=' := by decide

/-- Base64 round trip: decoding the encoding of any byte sequence gives
back the byte sequence. -/
theorem decB64_encB64 (l : List Nat) (h : ∀ b ∈ l, b < 256) :
    decB64 (encB64 l) = l := by
  induction l using encB64.induct with
  | case1 => rfl
  | case2 b1 =>
      have hb1 : b1 < 256 := h b1 (by simp)
      simp only [encB64, decB64]
      rw [if_pos trivial]
      rw [b64CharVal_b64Char _ (by omega), b64CharVal_b64Char _ (by omega)]
      simp only [List.cons.injEq, and_true]
      omega
  | case3 b1 b2 =>
      have hb1 : b1 < 256 := h b1 (by simp)
      have hb2 : b2 < 256 := h b2 (by simp)
      simp only [encB64, decB64]
      rw [if_neg (b64Char_ne_pad _ (by omega)), if_pos trivial]
      rw [b64CharVal_b64Char _ (by omega), b64CharVal_b64Char _ (by omega),
        b64CharVal_b64Char _ (by omega)]
      simp only [List.cons.injEq, and_true]
      exact ⟨by omega, by omega⟩
  | case4 b1 b2 b3 rest ih =>
      have hb1 : b1 < 256 := h b1 (by simp)
      have hb2 : b2 < 256 := h b2 (by simp)
      have hb3 : b3 < 256 := h b3 (by simp)
      have hrest : ∀ b ∈ rest, b < 256 := fun b hb => h b (by simp [hb])
      simp only [encB64, decB64]
      rw [if_neg (b64Char_ne_pad _ (by omega)), if_neg (b64Char_ne_pad _ (by omega))]
      rw [b64CharVal_b64Char _ (by omega), b64CharVal_b64Char _ (by omega),
        b64CharVal_b64Char _ (by omega), b64CharVal_b64Char _ (by omega)]
      simp only [List.cons.injEq]
      exact ⟨by omega, by omega, by omega, ih hrest⟩

theorem char_toNat_lt (c : Char) : c.toNat < 1114112 := by
  have he : c.toNat = c.val.toNat := rfl
  rcases c.valid with h | ⟨_, h⟩ <;> rw [he] <;> omega

theorem utf8Char_lt (c : Char) : ∀ b ∈ utf8Char c, b < 256 := by
  have hc := char_toNat_lt c
  intro b hb
  simp only [utf8Char] at hb
  split_ifs at hb <;>
    simp only [List.mem_cons, List.mem_singleton, List.not_mem_nil, or_false] at hb <;>
    omega

theorem utf8Bytes_lt (s : String) : ∀ b ∈ utf8Bytes s, b < 256 := by
  intro b hb
  simp only [utf8Bytes, List.mem_flatten, List.mem_map] at hb
  obtain ⟨l, ⟨c, _, rfl⟩, hbl⟩ := hb
  exact utf8Char_lt c b hbl

theorem lastN_eq_reverse_take (n : Nat) (l : List α) :
    lastN n l = (l.reverse.take n).reverse := by
  rw [List.take_reverse, List.reverse_reverse]; rfl

theorem lastN_of_length_le {n : Nat} {l : List α} (h : l.length ≤ n) : lastN n l = l := by
  simp [lastN, Nat.sub_eq_zero_of_le h]

theorem length_lastN_le (n : Nat) (l : List α) : (lastN n l).length ≤ n := by
  simp [lastN]; omega

theorem lastN_append_lastN (n : Nat) (a b : List α) :
    lastN n (lastN n a ++ b) = lastN n (a ++ b) := by
  simp only [lastN_eq_reverse_take, List.reverse_append, List.reverse_reverse]
  congr 1
  rw [List.take_append_eq_append_take, List.take_append_eq_append_take, List.take_take]
  congr 2
  omega

theorem roundHalfEven_intCast (k : ℤ) : roundHalfEven (k : ℚ) = k := by
  simp only [roundHalfEven, Int.floor_intCast, sub_self]
  norm_num

theorem pyRound1_intCast (k : ℤ) : pyRound1 (k : ℚ) = k := by
  have : ((k : ℚ) * 10) = ((k * 10 : ℤ) : ℚ) := by push_cast; ring
  rw [pyRound1, this, roundHalfEven_intCast]
  push_cast
  ring

theorem pyRound1_natCast (n : ℕ) : pyRound1 (n : ℚ) = n := by
  have : ((n : ℚ)) = ((n : ℤ) : ℚ) := by push_cast; ring
  rw [this, pyRound1_intCast]

theorem applyBalance_balances (now : Nat) (b : ℚ) (st : Ledger) :
    (applyBalance now b st).balances = lastN 1000 (st.balances ++ [⟨now, pyRound1 b⟩]) := by
  rw [applyBalance]

theorem applyAssets_balances (a : ArgInput) (st : Ledger) :
    (applyAssets a st).balances = st.balances := by
  rw [applyAssets]; split <;> rfl

theorem applyAssets_trades (a : ArgInput) (st : Ledger) :
    (applyAssets a st).trades = st.trades := by
  rw [applyAssets]; split <;> rfl

theorem applyTrades_balances (now : Nat) (t : ArgInput) (st : Ledger) :
    (applyTrades now t st).balances = st.balances := by
  rw [applyTrades]; split
  · split <;> rfl
  · rfl

theorem applyTrades_assets (now : Nat) (t : ArgInput) (st : Ledger) :
    (applyTrades now t st).assets = st.assets := by
  rw [applyTrades]; split
  · split <;> rfl
  · rfl

theorem save_balances (now : Nat) (b : ℚ) (a t : ArgInput) (st : Ledger) (h : b ≠ 0) :
    ((save_trading_result now b a t st).2).balances
      = lastN 1000 (st.balances ++ [⟨now, pyRound1 b⟩]) := by
  rw [save_trading_result, if_neg h]
  simp only [applyTrades_balances, applyAssets_balances, applyBalance_balances]

theorem save_fst (now : Nat) (b : ℚ) (a t : ArgInput) (st : Ledger) (h : b ≠ 0) :
    (save_trading_result now b a t st).1
      = SaveOutcome.saved (mermaidImage ((save_trading_result now b a t st).2).balances) := by
  rw [save_trading_result, if_neg h]

theorem save_assets_of_none (now : Nat) (b : ℚ) (a t : ArgInput) (st : Ledger)
    (h : b ≠ 0) (ha : truthyDict (resolveAssets a) = none) :
    ((save_trading_result now b a t st).2).assets = st.assets := by
  rw [save_trading_result, if_neg h]
  show (applyTrades _ _ (applyAssets _ _)).assets = _
  rw [applyTrades_assets, applyAssets, ha]
  rfl

theorem save_assets_of_some (now : Nat) (b : ℚ) (a t : ArgInput) (st : Ledger)
    (m : List (String × ℚ)) (h : b ≠ 0) (ha : truthyDict (resolveAssets a) = some m) :
    ((save_trading_result now b a t st).2).assets
      = m.map (fun kv => (kv.1, pyRound1 kv.2)) := by
  rw [save_trading_result, if_neg h]
  show (applyTrades _ _ (applyAssets _ _)).assets = _
  rw [applyTrades_assets, applyAssets, ha]

theorem save_trades_of_skip (now : Nat) (b : ℚ) (a t : ArgInput) (st : Ledger)
    (h : b ≠ 0) (ht : ∀ ts, resolveTrades t = some (.arr ts) → ts = []) :
    ((save_trading_result now b a t st).2).trades = st.trades := by
  rw [save_trading_result, if_neg h]
  show (applyTrades _ _ _).trades = _
  rcases hres : resolveTrades t with _ | v
  · rw [applyTrades, hres]
    rw [applyAssets_trades]
    rfl
  · cases v with
    | arr ts =>
        have hnil : ts = [] := ht ts hres
        subst hnil
        rw [applyTrades, hres]
        simp [applyAssets_trades, applyBalance]
    | obj m =>
        rw [applyTrades, hres]
        rw [applyAssets_trades]
        rfl
    | other =>
        rw [applyTrades, hres]
        rw [applyAssets_trades]
        rfl

theorem save_trades_of_arr (now : Nat) (b : ℚ) (a t : ArgInput) (st : Ledger)
    (ts : List String) (h : b ≠ 0) (ht : resolveTrades t = some (.arr ts)) (hts : ts ≠ []) :
    ((save_trading_result now b a t st).2).trades
      = ((ts.map (fun s => (⟨now, s⟩ : TradeEntry))).reverse ++ st.trades).take 100 := by
  rw [save_trading_result, if_neg h]
  show (applyTrades _ _ _).trades = _
  rw [applyTrades, ht]
  dsimp only
  rw [if_neg (by simpa [List.isEmpty_iff] using hts)]
  dsimp only
  rw [applyAssets_trades]
  rfl

theorem foldl_saveDefaults_balances (ns : List Nat) (st : Ledger)
    (hst : st.balances.length ≤ 1000) (h : ∀ n ∈ ns, (n : ℚ) ≠ 0) :
    (ns.foldl (fun s n => (saveDefaults n (n : ℚ) s).2) st).balances
      = lastN 1000 (st.balances ++ ns.map (fun n => ⟨n, pyRound1 (n : ℚ)⟩)) := by
  induction ns generalizing st with
  | nil => rw [List.foldl_nil, List.map_nil, List.append_nil, lastN_of_length_le hst]
  | cons n ns ih =>
      rw [List.foldl_cons]
      have hn : (n : ℚ) ≠ 0 := h n (by simp)
      have hbal : ((saveDefaults n (n : ℚ) st).2).balances
          = lastN 1000 (st.balances ++ [⟨n, pyRound1 (n : ℚ)⟩]) :=
        save_balances n (n : ℚ) _ _ st hn
      rw [ih _ (by rw [hbal]; exact length_lastN_le _ _) (fun m hm => h m (by simp [hm]))]
      rw [hbal, lastN_append_lastN]
      simp

theorem scenarioSaves_balances :
    scenarioSaves.balances = (List.range' 2 1000).map (fun n => ⟨n, (n : ℚ)⟩) := by
  rw [scenarioSaves, foldl_saveDefaults_balances _ _ (by simp)
    (fun n hn => by
      have := (List.mem_range'_1).mp hn
      exact_mod_cast Nat.cast_ne_zero.mpr (by omega))]
  show lastN 1000 ([] ++ _) = _
  rw [List.nil_append, lastN]
  rw [List.length_map, List.length_range']
  show (List.map _ (List.range' 1 (1000 + 1))).drop (1001 - 1000) = _
  rw [List.range'_succ]
  simp [pyRound1_natCast]

/-! ## Claim theorems -/

/-- C1: every save with a non-zero balance appends the point
`{now, round(balance, 1)}` to the balances list and truncates to the most
recent 1000 points (dropping from the front); and 1001 saves with
balances 1..1001 on an empty ledger leave exactly the 1000 points with
balances 2, 3, ..., 1001 in chronological (insertion) order. -/
theorem claim_C1 :
    (∀ (now : Nat) (b : ℚ) (a t : ArgInput) (st : Ledger), b ≠ 0 →
        ((save_trading_result now b a t st).2).balances
          = lastN 1000 (st.balances ++ [⟨now, pyRound1 b⟩]))
    ∧ scenarioSaves.balances = (List.range' 2 1000).map (fun n => ⟨n, (n : ℚ)⟩) :=
  ⟨save_balances, scenarioSaves_balances⟩

/-- Witness for C1 at a concrete input. -/
theorem claim_C1_witness :
    ((save_trading_result 7 3 (.jstr none) (.jstr none) ({} : Ledger)).2).balances
      = lastN 1000 (({} : Ledger).balances ++ [⟨7, pyRound1 3⟩]) :=
  claim_C1.1 7 3 (.jstr none) (.jstr none) ({} : Ledger) (by norm_num)

/-- C2: a save with an empty (or default/absent) assets map leaves the
stored asset snapshot unchanged; a save with a non-empty assets map
replaces the snapshot with exactly the rounded supplied map, whose key
list is exactly the supplied key list (so no old key survives). -/
theorem claim_C2 :
    ∀ (now : Nat) (b : ℚ) (t : ArgInput) (st : Ledger) (m : List (String × ℚ)), b ≠ 0 →
      ((save_trading_result now b (.direct (.obj [])) t st).2).assets = st.assets
      ∧ ((save_trading_result now b (.jstr (some (.obj []))) t st).2).assets = st.assets
      ∧ (m ≠ [] →
          ((save_trading_result now b (.direct (.obj m)) t st).2).assets
              = m.map (fun kv => (kv.1, pyRound1 kv.2))
          ∧ (((save_trading_result now b (.direct (.obj m)) t st).2).assets).map Prod.fst
              = m.map Prod.fst) := by
  intro now b t st m hb
  refine ⟨save_assets_of_none _ _ _ _ _ hb rfl,
    save_assets_of_none _ _ _ _ _ hb rfl, fun hm => ?_⟩
  have hd : truthyDict (resolveAssets (.direct (.obj m))) = some m := by
    simp [truthyDict, resolveAssets, List.isEmpty_iff, hm]
  refine ⟨save_assets_of_some _ _ _ _ _ _ hb hd, ?_⟩
  rw [save_assets_of_some _ _ _ _ _ _ hb hd, List.map_map]
  rfl

/-- Witness for C2 at a concrete input. -/
theorem claim_C2_witness :
    ((save_trading_result 1 5 (.direct (.obj [("ETH", (25 : ℚ)/10)])) (.jstr none)
        ⟨[], [("BTC", 2)], []⟩).2).assets
      = [("ETH", (25 : ℚ)/10)].map (fun kv => (kv.1, pyRound1 kv.2)) :=
  ((claim_C2 1 5 (.jstr none) ⟨[], [("BTC", 2)], []⟩ [("ETH", (25 : ℚ)/10)]
      (by norm_num)).2.2 (by simp)).1

/-- C4: a save with a zero balance is rejected (`"Balance is empty"`) and
performs no write: the resulting ledger is exactly the previous one. -/
theorem claim_C4 :
    ∀ (now : Nat) (a t : ArgInput) (st : Ledger),
      save_trading_result now 0 a t st = (SaveOutcome.balanceEmpty, st) := by
  intro now a t st
  rw [save_trading_result, if_pos rfl]

/-- C9: a save supplying a non-empty trade list `[t1, ..., tk]` stores the
supplied list in reversed order in front of the previous entries,
truncated to the first 100 (each entry is inserted at position 0 in
supplied order). -/
theorem claim_C9 :
    ∀ (now : Nat) (b : ℚ) (a : ArgInput) (st : Ledger) (ts : List String),
      b ≠ 0 → ts ≠ [] →
      ((save_trading_result now b a (.direct (.arr ts)) st).2).trades
        = ((ts.map (fun s => (⟨now, s⟩ : TradeEntry))).reverse ++ st.trades).take 100 := by
  intro now b a st ts hb hts
  exact save_trades_of_arr now b a _ st ts hb rfl hts

/-- Witness for C9 at a concrete input. -/
theorem claim_C9_witness :
    ((save_trading_result 4 2 (.jstr none) (.direct (.arr ["t1", "t2"]))
        ⟨[], [], [⟨0, "old"⟩]⟩).2).trades
      = ((["t1", "t2"].map (fun s => (⟨4, s⟩ : TradeEntry))).reverse
           ++ ([⟨0, "old"⟩] : List TradeEntry)).take 100 :=
  claim_C9 4 2 (.jstr none) ⟨[], [], [⟨0, "old"⟩]⟩ ["t1", "t2"] (by norm_num) (by simp)

/-- C10: when the assets argument is a string that is invalid JSON or
decodes to something other than a dict, the stored snapshot is left
unchanged — whatever the trades argument is; and when the trades argument
is a string that is invalid JSON or decodes to something other than a
list, the stored trade log is left unchanged — whatever the assets
argument is.  In either case the save does not fail: the balance point is
still appended and the normal saved result (persisted ledger plus chart
URL) is returned. -/
theorem claim_C10 :
    ∀ (now : Nat) (b : ℚ) (st : Ledger) (a t : ArgInput),
      b ≠ 0 →
      ((a = .jstr none ∨ ∃ v, a = .jstr (some v) ∧ v.isObj = false) →
        ((save_trading_result now b a t st).2).assets = st.assets
        ∧ ((save_trading_result now b a t st).2).balances
            = lastN 1000 (st.balances ++ [⟨now, pyRound1 b⟩])
        ∧ (save_trading_result now b a t st).1
            = SaveOutcome.saved (mermaidImage
                (((save_trading_result now b a t st).2).balances)))
      ∧ ((t = .jstr none ∨ ∃ w, t = .jstr (some w) ∧ w.isArr = false) →
        ((save_trading_result now b a t st).2).trades = st.trades
        ∧ ((save_trading_result now b a t st).2).balances
            = lastN 1000 (st.balances ++ [⟨now, pyRound1 b⟩])
        ∧ (save_trading_result now b a t st).1
            = SaveOutcome.saved (mermaidImage
                (((save_trading_result now b a t st).2).balances))) := by
  intro now b st a t hb
  constructor
  · intro ha
    refine ⟨?_, save_balances _ _ _ _ _ hb, save_fst _ _ _ _ _ hb⟩
    apply save_assets_of_none _ _ _ _ _ hb
    rcases ha with rfl | ⟨v, rfl, hv⟩
    · rfl
    · cases v with
      | obj m => simp [PyJson.isObj] at hv
      | arr l => rfl
      | other => rfl
  · intro ht
    refine ⟨?_, save_balances _ _ _ _ _ hb, save_fst _ _ _ _ _ hb⟩
    apply save_trades_of_skip _ _ _ _ _ hb
    intro ts hts
    rcases ht with rfl | ⟨w, rfl, hw⟩
    · simp [resolveTrades] at hts
    · cases w with
      | obj m => simp [resolveTrades] at hts
      | arr l => simp [PyJson.isArr] at hw
      | other => simp [resolveTrades] at hts

/-- Witness for C10 at concrete inputs: an invalid-JSON assets string
paired with a valid non-empty trades list leaves the snapshot unchanged,
and a valid non-empty assets dict paired with a trades string decoding to
a dict (not a list) leaves the trade log unchanged. -/
theorem claim_C10_witness :
    ((save_trading_result 3 1 (.jstr none) (.direct (.arr ["t1"]))
        ⟨[], [("X", 1)], [⟨0, "z"⟩]⟩).2).assets = [("X", (1 : ℚ))]
    ∧ ((save_trading_result 3 1 (.direct (.obj [("k", 2)])) (.jstr (some (.obj [])))
        ⟨[], [("X", 1)], [⟨0, "z"⟩]⟩).2).trades = ([⟨0, "z"⟩] : List TradeEntry) :=
  ⟨((claim_C10 3 1 ⟨[], [("X", 1)], [⟨0, "z"⟩]⟩ (.jstr none) (.direct (.arr ["t1"]))
      (by norm_num)).1 (Or.inl rfl)).1,
   ((claim_C10 3 1 ⟨[], [("X", 1)], [⟨0, "z"⟩]⟩ (.direct (.obj [("k", 2)]))
      (.jstr (some (.obj [])))
      (by norm_num)).2 (Or.inr ⟨.obj [], rfl, rfl⟩)).1⟩

/-- Counter fold of `_generate_trades_summary` expressed with `countP`. -/
theorem trade_counts_foldl (ts : List String) (bc sc : Nat) :
    ts.foldl
      (fun bc t =>
        if isBuyText t then (bc.1 + 1, bc.2)
        else if isSellText t then (bc.1, bc.2 + 1)
        else bc)
      (bc, sc)
    = (bc + ts.countP (fun t => isBuyText t),
       sc + ts.countP (fun t => !isBuyText t && isSellText t)) := by
  induction ts generalizing bc sc with
  | nil => simp
  | cons t ts ih =>
      rw [List.foldl_cons]
      by_cases hb : isBuyText t = true
      · simp [hb, ih, List.countP_cons]
        omega
      · by_cases hs : isSellText t = true
        · simp [hb, hs, ih, List.countP_cons]
          omega
        · simp [hb, hs, ih, List.countP_cons]

/-- Accumulator generalisation of `generate_cycle_summary`'s loop. -/
theorem cycle_fold_general (results : List CycleResult) (a : ℚ) (b : Nat) (c : ℚ) :
    results.foldl
      (fun acc r =>
        if r.success then (acc.1 + r.balance, acc.2.1 + r.executedTrades.length, r.balance)
        else acc)
      (a, b, c)
    = (a + ((results.filter (fun r => r.success)).map (fun r => r.balance)).sum,
       b + ((results.filter (fun r => r.success)).map (fun r => r.executedTrades.length)).sum,
       ((results.filter (fun r => r.success)).map (fun r => r.balance)).getLastD c) := by
  induction results generalizing a b c with
  | nil => simp
  | cons r rs ih =>
      rw [List.foldl_cons]
      by_cases hr : r.success = true
      · simp only [hr, if_pos, List.filter_cons_of_pos, List.map_cons, List.sum_cons,
          List.getLastD_cons, ih]
        refine Prod.ext ?_ (Prod.ext ?_ ?_) <;> simp <;> try ring
      · simp [hr, List.filter_cons_of_neg, ih]

/-- C3 counterexample: the performance-metrics guard is `initial > 0`, not
`initial == 0` — at `initial = -1, latest = 5` the code yields 0 while the
claimed formula yields -600; and the report's inline percentage does
divide by zero (raising `ZeroDivisionError`) on an empty balance history,
where `initialBalance = 0`. -/
theorem claim_C3_counterexample :
    pm_profit_rate (-1) 5 = 0
    ∧ ((5 : ℚ) - (-1)) / (-1) * 100 = -600
    ∧ (0 : ℚ) ≠ -600
    ∧ report_profit_rate [] = Except.error "ZeroDivisionError" := by
  refine ⟨?_, by norm_num, by norm_num, rfl⟩
  rw [pm_profit_rate, if_neg (by norm_num)]

/-- C3 (amended): the performance-metrics profit rate is 0 whenever
`initialBalance ≤ 0` and equals `(latest - initial) / initial * 100` when
`initialBalance > 0` (so that division never runs on a non-positive
initial balance); the report's inline percentage, by contrast, is
unguarded: it raises `ZeroDivisionError` exactly when `initialBalance = 0`
(the report's exception handler catches it) and otherwise returns the
formula, with `initialBalance` defined as the first point's balance when
at least two points exist and as the latest balance otherwise. -/
theorem claim_C3 :
    ∀ (i l : ℚ) (bs : List BalancePoint),
      (i ≤ 0 → pm_profit_rate i l = 0)
      ∧ (0 < i → pm_profit_rate i l = (l - i) / i * 100)
      ∧ (report_profit_rate bs = Except.error "ZeroDivisionError" ↔ initial_balance bs = 0)
      ∧ (initial_balance bs ≠ 0 →
          report_profit_rate bs
            = Except.ok ((latest_balance bs - initial_balance bs)
                / initial_balance bs * 100)) := by
  intro i l bs
  refine ⟨fun h => ?_, fun h => ?_, ?_, fun h => ?_⟩
  · rw [pm_profit_rate, if_neg (not_lt.mpr h)]
  · rw [pm_profit_rate, if_pos h]
  · rw [report_profit_rate]
    split_ifs with h0 <;> simp [h0]
  · rw [report_profit_rate, if_neg h]

/-- Witness for C3 (amended) at concrete inputs. -/
theorem claim_C3_witness :
    pm_profit_rate 0 7 = 0 ∧ pm_profit_rate 2 3 = (3 - 2) / 2 * 100 :=
  ⟨(claim_C3 0 7 []).1 (by norm_num), (claim_C3 2 3 []).2.1 (by norm_num)⟩

/-- C5: the chart descriptor encoding is a URL-safe base64 round trip —
for every non-empty balance point sequence, decoding the encoded
descriptor (for both the save hook's chart and the notification system's
chart) returns exactly the descriptor's UTF-8 bytes. -/
theorem claim_C5 :
    ∀ points : List BalancePoint, points ≠ [] →
      decB64 (encB64 (utf8Bytes (mermaidChart points))) = utf8Bytes (mermaidChart points)
      ∧ decB64 (encB64 (utf8Bytes (mermaidChartTg points)))
          = utf8Bytes (mermaidChartTg points) := by
  intro points _
  exact ⟨decB64_encB64 _ (utf8Bytes_lt _), decB64_encB64 _ (utf8Bytes_lt _)⟩

/-- Witness for C5 at a concrete input. -/
theorem claim_C5_witness :
    decB64 (encB64 (utf8Bytes (mermaidChart [⟨0, 100⟩])))
      = utf8Bytes (mermaidChart [⟨0, 100⟩]) :=
  (claim_C5 [⟨0, 100⟩] (by simp)).1

/-- C6 counterexample: the classification is case-sensitive, not
case-insensitive as claimed — the text `"buy 0.1 BTC"` is a buy under the
claimed case-insensitive keyword match, but the code counts it neither as
buy nor as sell. -/
theorem claim_C6_counterexample :
    specBuyText "buy 0.1 BTC" = true ∧ trade_counts ["buy 0.1 BTC"] = (0, 0) := by
  constructor <;> decide

/-- C6 (amended): each of the first ten trade entries is classified as a
buy if its text contains `"Bought"` or `"Buy"` case-sensitively, else as a
sell if it contains `"Sold"` or `"Sell"` case-sensitively, and is
otherwise uncounted; the reported counts are the numbers of entries so
classified. -/
theorem claim_C6 :
    ∀ texts : List String,
      trade_counts texts
        = ((texts.take 10).countP (fun t => isBuyText t),
           (texts.take 10).countP (fun t => !isBuyText t && isSellText t)) := by
  intro texts
  rw [trade_counts, trade_counts_foldl]
  simp

/-- C7 counterexample: `daysSpan` is the exact quotient
`balanceRecordCount / 24` with no floor at 1 — at 12 records the code
yields 1/2, not the claimed 1. -/
theorem claim_C7_counterexample :
    days_span 12 = 1/2 ∧ ((1 : ℚ)/2) ≠ 1 := by
  constructor
  · rw [days_span, if_pos (by norm_num)]
    norm_num
  · norm_num

/-- C7 (amended): `daysSpan` equals `balanceRecordCount / 24` (exact
rational division) when the record count is positive and 1 when it is
zero; it is always positive, and `dailyAverageProfit` always equals
`netProfit / daysSpan`. -/
theorem claim_C7 :
    ∀ (net : ℚ) (records : Nat),
      0 < days_span records
      ∧ daily_avg_profit net records = net / days_span records
      ∧ (records = 0 → days_span records = 1)
      ∧ (0 < records → days_span records = (records : ℚ) / 24) := by
  intro net records
  have hpos : 0 < days_span records := by
    rw [days_span]
    split_ifs with h
    · exact div_pos (by exact_mod_cast h) (by norm_num)
    · norm_num
  refine ⟨hpos, ?_, fun h => by rw [days_span, if_neg (by omega)],
    fun h => by rw [days_span, if_pos h]⟩
  rw [daily_avg_profit, if_pos hpos]

/-- Witness for C7 (amended) at concrete inputs. -/
theorem claim_C7_witness :
    days_span 0 = 1 ∧ days_span 48 = (48 : ℚ) / 24 ∧ daily_avg_profit 10 0 = 10 / days_span 0 :=
  ⟨(claim_C7 10 0).2.2.1 rfl, (claim_C7 10 48).2.2.2 (by norm_num), (claim_C7 10 0).2.1⟩

/-- C8: over any sequence of cycle results, the multi-cycle summary's
`totalTrades` is the sum of executed-trade counts over successful cycles,
`avgBalance` is the sum of successful cycles' balances divided by the
number of successful cycles (0 when none succeeded), and `finalBalance`
is the last successful cycle's balance; failed cycles (including cycles
that raised and were appended as failures) are excluded.  In particular
for three cycles of which the second fails, two are counted and the
average is over the two successful balances. -/
theorem claim_C8 :
    ∀ (results : List CycleResult) (r1 r3 : CycleResult),
      (generate_cycle_summary results (successful_cycles results)).totalTrades
          = ((results.filter (fun r => r.success)).map
                (fun r => r.executedTrades.length)).sum
      ∧ (successful_cycles results = 0 →
          (generate_cycle_summary results (successful_cycles results)).avgBalance = 0)
      ∧ (0 < successful_cycles results →
          (generate_cycle_summary results (successful_cycles results)).avgBalance
            = ((results.filter (fun r => r.success)).map (fun r => r.balance)).sum
                / (successful_cycles results : ℚ))
      ∧ (∀ last, (results.filter (fun r => r.success)).getLast? = some last →
          (generate_cycle_summary results (successful_cycles results)).finalBalance
            = last.balance)
      ∧ (r1.success = true → r3.success = true →
          successful_cycles [r1, ⟨false, 0, []⟩, r3] = 2
          ∧ (generate_cycle_summary [r1, ⟨false, 0, []⟩, r3]
                (successful_cycles [r1, ⟨false, 0, []⟩, r3])).avgBalance
              = (r1.balance + r3.balance) / 2) := by
  intro results r1 r3
  refine ⟨?_, fun h => ?_, fun h => ?_, fun last hlast => ?_, fun h1 h3 => ?_⟩
  · rw [generate_cycle_summary]
    show (cycle_fold results).2.1 = _
    rw [cycle_fold, cycle_fold_general]
    simp
  · rw [generate_cycle_summary]
    show (if 0 < successful_cycles results then _ else 0) = 0
    rw [if_neg (by omega)]
  · rw [generate_cycle_summary]
    show (if 0 < successful_cycles results then (cycle_fold results).1 / _ else 0) = _
    rw [if_pos h, cycle_fold, cycle_fold_general]
    simp
  · rw [generate_cycle_summary]
    show (cycle_fold results).2.2 = _
    rw [cycle_fold, cycle_fold_general]
    show (List.map _ _).getLastD 0 = _
    rw [List.getLastD_eq_getLast?, List.getLast?_map, hlast]
    rfl
  · constructor
    · simp [successful_cycles, List.countP_cons, h1, h3]
    · rw [generate_cycle_summary]
      show (if 0 < successful_cycles _ then (cycle_fold _).1 / _ else 0) = _
      have hs : successful_cycles [r1, ⟨false, 0, []⟩, r3] = 2 := by
        simp [successful_cycles, List.countP_cons, h1, h3]
      rw [hs, if_pos (by norm_num), cycle_fold, cycle_fold_general]
      simp [List.filter_cons, h1, h3]

/-- Witness for C8 at a concrete input. -/
theorem claim_C8_witness :
    (generate_cycle_summary
        [⟨true, 10, ["a"]⟩, ⟨false, 0, []⟩, ⟨true, 20, []⟩]
        (successful_cycles [⟨true, 10, ["a"]⟩, ⟨false, 0, []⟩, ⟨true, 20, []⟩])).avgBalance
      = ((10 : ℚ) + 20) / 2 :=
  ((claim_C8 [] ⟨true, 10, ["a"]⟩ ⟨true, 20, []⟩).2.2.2.2 rfl rfl).2

end AiTrading
